import Mathlib

/-!
Verification development for the Nova plugin orchestration subsystem.

Shallow embedding of the relevant parts of
`src/nova/core/plugin_spec.py`, `src/nova/core/plugin_base.py`,
`src/nova/core/plugin_manager.py`, `src/nova/core/plugin_bridge.py`
and `src/nova/core/plugin_state.py`.

Conventions of the embedding:
  * Python strings are Lean `String`; byte buffers are `List Char`.
  * A parsed JSON manifest object is an association list from field name to
    string value (`Desc`); a file whose JSON fails to decode is `none`.
    The bool metadata field `thread_isolated` (read with a default and used
    by no operation modelled here) is omitted from the record.
  * Filesystem facts (which files and directories exist), process spawn
    success, and dynamic import success are environment parameters of the
    operations that consult them.
  * Wall clock timestamps (`installed_at`, `last_run`) are environment
    effects and are not modelled; the counters of the state store are.
-/

namespace NovaSpec

/-- The characters removed by Python `str.strip()`. -/
def isPySpace (c : Char) : Bool :=
  c = ' ' || c = '\t' || c = '\n' || c = '\r' || c = '\x0b' || c = '\x0c'

/-- Python `strip()` on a list of characters. -/
def pyStripList (l : List Char) : List Char :=
  ((l.dropWhile isPySpace).reverse.dropWhile isPySpace).reverse

/-- Python `str.strip()`. -/
def pyStrip (s : String) : String := ⟨pyStripList s.data⟩

def isLowerAZ (c : Char) : Bool := decide ('a' ≤ c) && decide (c ≤ 'z')

def isUpperAZ (c : Char) : Bool := decide ('A' ≤ c) && decide (c ≤ 'Z')

def isDigit09 (c : Char) : Bool := decide ('0' ≤ c) && decide (c ≤ '9')

def isIdTail (c : Char) : Bool := isLowerAZ c || isDigit09 c || c = '_'

def isWordChar (c : Char) : Bool :=
  isLowerAZ c || isUpperAZ c || isDigit09 c || c = '_'

/-- The id slug regex of `plugin_spec.py`: `[a-z][a-z0-9_]` with the tail
bounded by 63 characters, anchored at both ends. -/
def idMatches (s : String) : Bool :=
  match s.data with
  | [] => false
  | c :: cs => isLowerAZ c && decide (cs.length ≤ 63) && cs.all isIdTail

/-- Consume one or more digits greedily; `none` when the first character is
not a digit. -/
def dropDigits1 : List Char → Option (List Char)
  | [] => none
  | c :: cs => if isDigit09 c then some (cs.dropWhile isDigit09) else none

/-- The version regex of `plugin_spec.py`: digits dot digits dot digits,
as an unanchored-at-the-end match (Python `re.match`). -/
def semverMatches (s : String) : Bool :=
  match dropDigits1 s.data with
  | some ('.' :: r2) =>
    match dropDigits1 r2 with
    | some ('.' :: r4) => (dropDigits1 r4).isSome
    | _ => false
  | _ => false

def identMatches : List Char → Bool
  | [] => false
  | c :: cs => (isLowerAZ c || isUpperAZ c || c = '_') && cs.all isWordChar

/-- Split a character list at the first dot. -/
def splitAtDot : List Char → Option (List Char × List Char)
  | [] => none
  | c :: cs =>
    if c = '.' then some ([], cs)
    else
      match splitAtDot cs with
      | none => none
      | some (a, b) => some (c :: a, b)

/-- The entry regex of `plugin_spec.py`: identifier dot identifier, anchored
at both ends (a word character is never a dot, so exactly one dot occurs). -/
def entryMatches (s : String) : Bool :=
  match splitAtDot s.data with
  | none => false
  | some (a, b) => identMatches a && identMatches b

/-- A decoded manifest JSON object: field name to string value. -/
abbrev Desc := List (String × String)

def descGet : Desc → String → Option String
  | [], _ => none
  | (k2, v) :: t, k => if k2 = k then some v else descGet t k

def descGetD (d : Desc) (k : String) (dflt : String) : String :=
  (descGet d k).getD dflt

/-- The manifest record of `plugin_base.py` (field `thread_isolated`
omitted, see the file header). -/
structure PluginManifest where
  id : String
  name : String
  version : String
  description : String
  author : String
  icon : String
  entry : String
  deriving DecidableEq

/-- Embedding of `PluginManifest.from_file` in `plugin_base.py`: the `id` and `name`
keys are mandatory (a missing one raises KeyError, modelled as `none`);
every other field falls back to its default. -/
def fromFileDesc (d : Desc) : Option PluginManifest :=
  match descGet d "id", descGet d "name" with
  | some i, some n =>
    some ⟨i, n, descGetD d "version" "0.1.0", descGetD d "description" "",
      descGetD d "author" "", descGetD d "icon" "extension",
      descGetD d "entry" "plugin_main.Plugin"⟩
  | _, _ => none

/-- Embedding of `PluginManager.discover`: walk the discovered `plugin.json` files in
order, parse each with `from_file`, keep the successes, and skip any file
that raises (a JSON decode failure is the outer `none`, a missing required
key makes `fromFileDesc` return `none`); a failure never aborts the scan. -/
def discover (files : List (Option Desc)) : List PluginManifest :=
  files.filterMap (fun f => f.bind fromFileDesc)

def REQUIRED_FIELDS : List String :=
  ["id", "name", "version", "description", "author", "entry"]

def idPatternMsg : String :=
  "Field \x27id\x27 must be lowercase letters/digits/underscores, start with a letter, max 64 chars"

/-- First validation pass of `validate_manifest`: every required field must
be present and non-blank, each failure appending a distinct reason. -/
def requiredFieldErrors (d : Desc) : List String :=
  REQUIRED_FIELDS.foldl (fun errs f =>
    match descGet d f with
    | none => errs ++ ["Missing required field: \x27" ++ f ++ "\x27"]
    | some v =>
      if pyStrip v = "" then errs ++ ["Field \x27" ++ f ++ "\x27 must not be empty"]
      else errs) []

/-- Computes `entry.split(".")[0]`. -/
def moduleName (entry : String) : String :=
  ⟨entry.data.takeWhile (fun c => c ≠ '.')⟩

/-- Embedding of `validate_manifest` in `plugin_spec.py`. `parsed` is the JSON decode
result of the descriptor file; `entryFileExists m` says whether `m.py`
exists next to the descriptor. Returns `(is_valid, errors)`. -/
def validate_manifest (parsed : Option Desc) (entryFileExists : String → Bool) :
    Bool × List String :=
  match parsed with
  | none => (false, ["Invalid JSON: decode error"])
  | some data =>
    let errors := requiredFieldErrors data
    let pid := descGetD data "id" ""
    let errors :=
      if !pid.isEmpty && !(idMatches pid) then errors ++ [idPatternMsg] else errors
    let ver := descGetD data "version" ""
    let errors :=
      if !ver.isEmpty && !(semverMatches ver) then
        errors ++ ["Field \x27version\x27 should follow semver (e.g. \x271.0.0\x27)"]
      else errors
    let entry := descGetD data "entry" ""
    let errors :=
      if !entry.isEmpty && !(entryMatches entry) then
        errors ++ ["Field \x27entry\x27 must be \x27module_name.ClassName\x27 (e.g. \x27plugin_main.Plugin\x27)"]
      else errors
    let errors :=
      if errors.isEmpty && !entry.isEmpty && !(entryFileExists (moduleName entry)) then
        errors ++ ["Entry file \x27" ++ moduleName entry ++ ".py\x27 not found in plugin directory"]
      else errors
    (errors.isEmpty, errors)

example : idMatches "clock_widget" = true := by decide
example : idMatches "Bad-ID!" = false := by decide
example : semverMatches "1.0.0" = true := by decide
example : semverMatches "1.0" = false := by decide
example : entryMatches "plugin_main.Plugin" = true := by decide
example : entryMatches "a.b.c" = false := by decide

/-! ## Association lists (Python dict semantics over insertion order) -/

def alGet {α : Type} : List (String × α) → String → Option α
  | [], _ => none
  | (k2, v) :: t, k => if k2 = k then some v else alGet t k

def alSet {α : Type} : List (String × α) → String → α → List (String × α)
  | [], k, v => [(k, v)]
  | (k2, v2) :: t, k, v =>
    if k2 = k then (k, v) :: t else (k2, v2) :: alSet t k v

def alRemove {α : Type} (l : List (String × α)) (k : String) : List (String × α) :=
  l.filter (fun p => p.1 ≠ k)

def setAdd (l : List String) (id : String) : List String :=
  if id ∈ l then l else id :: l

def setDiscard (l : List String) (id : String) : List String :=
  l.filter (fun x => x ≠ id)

/-! ## Persistent per-plugin state (`plugin_state.py`) -/

/-- Embedding of `PluginState` in `plugin_state.py`; the two wall clock timestamp fields
are environment effects and are not modelled. -/
structure PluginState where
  enabled : Bool
  favorite : Bool
  run_count : Nat
  crash_count : Nat
  deriving DecidableEq

/-- The defaults of the `PluginState` dataclass. -/
def defaultPluginState : PluginState := ⟨true, false, 0, 0⟩

abbrev StateMap := List (String × PluginState)

/-- Embedding of `PluginStateManager.get`: lazily create a default entry. -/
def stateGetIns (states : StateMap) (id : String) : StateMap × PluginState :=
  match alGet states id with
  | some s => (states, s)
  | none => (alSet states id defaultPluginState, defaultPluginState)

/-- Embedding of `PluginStateManager.record_run` (the `last_run` stamp is unmodelled). -/
def record_run (states : StateMap) (id : String) : StateMap :=
  match stateGetIns states id with
  | (sts, s) => alSet sts id { s with run_count := s.run_count + 1 }

/-- Embedding of `PluginStateManager.record_crash`. -/
def record_crash (states : StateMap) (id : String) : StateMap :=
  match stateGetIns states id with
  | (sts, s) => alSet sts id { s with crash_count := s.crash_count + 1 }

/-- Embedding of `PluginStateManager.remove`. -/
def stateRemove (states : StateMap) (id : String) : StateMap :=
  alRemove states id

/-! ## The Manager state (`plugin_manager.py`) -/

/-- Embedding of `_PluginRecord`: the optional plugin / bridge / process object fields
are presence flags; `processRunning` is whether the QProcess state is not
NotRunning. -/
structure PluginRec where
  manifest : PluginManifest
  hasPlugin : Bool
  hasBridge : Bool
  hasProcess : Bool
  processRunning : Bool
  socket_name : String
  restart_count : Nat
  active : Bool
  deriving DecidableEq

/-- The PluginManager state: records, the intentional-stop marker set, the
state store map, and a counter providing the fresh part of socket names
(models `uuid.uuid4().hex[:8]`, fresh on every draw). -/
structure Mgr where
  records : List (String × PluginRec)
  intentional_stops : List String
  states : StateMap
  uuidCtr : Nat
  deriving DecidableEq

/-- Qt signals emitted by the Manager. -/
inductive Emit where
  | loaded (id : String)
  | started (id : String)
  | stopped (id : String)
  | crashed (id : String) (msg : String)
  | deleted (id : String)
  | imported (id : String)
  deriving DecidableEq

/-- Deferred single-shot timers scheduled by the Manager. -/
inductive Sched where
  | restartStart (id : String) (delayMs : Nat)
  | killProcess (id : String) (delayMs : Nat)
  deriving DecidableEq

/-- The primitive effects of `stop()`, in the order the code performs
them (used to settle the ordering claim on the intentional-stop marker). -/
inductive Effect where
  | markIntentional (id : String)
  | setActiveFalse (id : String)
  | sendStopCommand (id : String)
  | terminateProcess (id : String)
  | scheduleKill (id : String) (delayMs : Nat)
  | emitStopped (id : String)
  deriving DecidableEq

def _MAX_RESTARTS : Nat := 3

/-- The crash notification text of `_handle_process_finished`. -/
def crashMsg (id : String) (code : Int) (attempt : Nat) : String :=
  "Plugin \x27" ++ id ++ "\x27 crashed (exit_code=" ++ toString code ++
    ", attempt " ++ toString attempt ++ "/" ++ toString _MAX_RESTARTS ++ ")"

/-- Channel name generation of `load()`:
`f"nova_{plugin_id}_{uuid.uuid4().hex[:8]}"`, the uuid draw modelled by the
fresh counter. -/
def mkSocketName (id : String) (n : Nat) : String :=
  "nova_" ++ id ++ "_" ++ toString n

def is_active (st : Mgr) (id : String) : Bool :=
  match alGet st.records id with
  | some r => r.active
  | none => false

def is_loaded (st : Mgr) (id : String) : Bool :=
  (alGet st.records id).isSome

def loaded_count (st : Mgr) : Nat := st.records.length

def active_count (st : Mgr) : Nat :=
  (st.records.filter (fun p => p.2.active)).length

/-- Environment inputs consulted by `load()`: the manifest found by the
discovery rescan, whether the entry module file exists, whether the
dynamic import succeeds, and whether instantiating the class succeeds. -/
structure LoadEnv where
  manifestFound : Option PluginManifest
  entryFileExists : Bool
  importOk : Bool
  instOk : Bool

/-- Embedding of `PluginManager.load`. Mirrors the code: early success when already
loaded; failure when the manifest, the entry file, or the import is
missing; the record (carrying the freshly generated socket name) is stored
before instantiation and deleted again when instantiation throws. -/
def load (st : Mgr) (id : String) (env : LoadEnv) : Mgr × List Emit × Bool :=
  if (alGet st.records id).isSome then (st, [], true)
  else
    match env.manifestFound with
    | none => (st, [], false)
    | some m =>
      if !env.entryFileExists then (st, [], false)
      else if !env.importOk then (st, [], false)
      else
        let sock := mkSocketName id st.uuidCtr
        let r0 : PluginRec := ⟨m, false, false, false, false, sock, 0, false⟩
        let st1 : Mgr :=
          { st with records := alSet st.records id r0, uuidCtr := st.uuidCtr + 1 }
        if !env.instOk then
          ({ st1 with records := alRemove st1.records id }, [], false)
        else
          ({ st1 with
              records := alSet st1.records id
                { r0 with hasPlugin := true, hasBridge := true } },
           [Emit.loaded id], true)

/-- Embedding of `PluginManager.start`. `spawnOk` is whether the spawned QProcess
reports started within the 3 s wait. Note the unconditional
`record.restart_count = 0` before spawning. -/
def start (st : Mgr) (id : String) (spawnOk : Bool) : Mgr × List Emit × Bool :=
  match alGet st.records id with
  | none => (st, [], false)
  | some r =>
    if r.active then (st, [], true)
    else
      let r1 := { r with restart_count := 0 }
      if !spawnOk then ({ st with records := alSet st.records id r1 }, [], false)
      else
        let r2 := { r1 with hasProcess := true, processRunning := true, active := true }
        ({ st with records := alSet st.records id r2,
                   states := record_run st.states id },
         [Emit.started id], true)

/-- Embedding of `PluginManager.stop`. Returns the new state together with the ordered
effect trace the code performs. -/
def stop (st : Mgr) (id : String) : Mgr × List Effect :=
  match alGet st.records id with
  | none => (st, [])
  | some r =>
    if !r.active then (st, [])
    else
      let effs1 := [Effect.markIntentional id, Effect.setActiveFalse id]
      let effs2 := if r.hasBridge then effs1 ++ [Effect.sendStopCommand id] else effs1
      let effs3 :=
        if r.hasProcess && r.processRunning then
          effs2 ++ [Effect.terminateProcess id, Effect.scheduleKill id 2000]
        else effs2
      ({ st with records := alSet st.records id { r with active := false },
                 intentional_stops := setAdd st.intentional_stops id },
       effs3 ++ [Effect.emitStopped id])

/-- Embedding of `PluginManager._handle_process_finished`, run when the worker process
of `id` has exited (its QProcess is NotRunning by then). -/
def handleProcessFinished (st : Mgr) (id : String) (exitCode : Int) (crashExit : Bool) :
    Mgr × List Emit × List Sched :=
  match alGet st.records id with
  | none => (st, [], [])
  | some r =>
    let r1 := { r with processRunning := false }
    let intentional := id ∈ st.intentional_stops
    let stops := setDiscard st.intentional_stops id
    let wasActive := r1.active
    let r2 := { r1 with active := false }
    if intentional then
      ({ st with records := alSet st.records id r2, intentional_stops := stops },
       [], [])
    else if wasActive && (crashExit || exitCode != 0) then
      let r3 := { r2 with restart_count := r2.restart_count + 1 }
      let scheds :=
        if r3.restart_count ≤ _MAX_RESTARTS then [Sched.restartStart id 2000] else []
      ({ st with records := alSet st.records id r3, intentional_stops := stops,
                 states := record_crash st.states id },
       [Emit.crashed id (crashMsg id exitCode r3.restart_count)], scheds)
    else
      ({ st with records := alSet st.records id r2, intentional_stops := stops },
       [Emit.stopped id], [])

def rmFailMsg : String := "Failed to remove plugin files: OSError"

/-- The common preamble of `delete_plugin` and `reload_plugin`: stop the
plugin when active, then wait up to 1.5 s for the process to finish.
`exitsDuringWait` says whether the worker exits inside `waitForFinished`
(its finished signal then runs the exit handler during the wait). -/
def stopAndWait (st : Mgr) (id : String)
    (exitsDuringWait : Bool) (exitCode : Int) (crashExit : Bool) : Mgr :=
  if is_active st id then
    let s := (stop st id).1
    if exitsDuringWait then (handleProcessFinished s id exitCode crashExit).1 else s
  else st

/-- Embedding of `PluginManager.delete_plugin`. `dirExists` and `rmFails` are the
filesystem facts of the final `shutil.rmtree`. The result carries the
emitted signals and the `(ok, error_message)` return value. -/
def delete_plugin (st : Mgr) (id : String)
    (exitsDuringWait : Bool) (exitCode : Int) (crashExit : Bool)
    (dirExists rmFails : Bool) : Mgr × List Emit × (Bool × String) :=
  let st1 := stopAndWait st id exitsDuringWait exitCode crashExit
  let st2 := { st1 with records := alRemove st1.records id }
  let st3 := { st2 with states := stateRemove st2.states id }
  if dirExists then
    if rmFails then (st3, [], (false, rmFailMsg))
    else (st3, [Emit.deleted id], (true, ""))
  else (st3, [Emit.deleted id], (true, ""))

/-- One iteration of the `stop_all` loop for one id; `exits id` says
whether that process exits inside the bounded synchronous waits (the
finished signal is then delivered during the wait). -/
def stopAllStep (exits : String → Bool) (st : Mgr) (id : String) : Mgr :=
  match alGet st.records id with
  | none => st
  | some r =>
    if !r.active then st
    else
      let st1 : Mgr :=
        { st with records := alSet st.records id { r with active := false },
                  intentional_stops := setAdd st.intentional_stops id }
      if r.hasProcess && r.processRunning && exits id then
        (handleProcessFinished st1 id 0 true).1
      else st1

/-- Embedding of `PluginManager.stop_all`: iterate over a snapshot of the record keys. -/
def stop_all (st : Mgr) (exits : String → Bool) : Mgr :=
  (st.records.map Prod.fst).foldl (stopAllStep exits) st

/-- Embedding of `PluginManager.reload_plugin`. -/
def reload_plugin (st : Mgr) (id : String)
    (exitsDuringWait : Bool) (exitCode : Int) (crashExit : Bool)
    (env : LoadEnv) (spawnOk : Bool) : Mgr × List Emit × Bool :=
  let wasActive := is_active st id
  let st1 := stopAndWait st id exitsDuringWait exitCode crashExit
  let st2 := { st1 with records := alRemove st1.records id }
  match load st2 id env with
  | (st3, em, ok) =>
    if !ok then (st3, em, false)
    else if wasActive then
      match start st3 id spawnOk with
      | (st4, em2, ok2) => (st4, em ++ em2, ok2)
    else (st3, em, true)

/-- Python `str.endswith`, over the character-list view (the suffix test
of the archive entry names). -/
def strEndsWith (s pat : String) : Bool :=
  List.isPrefixOf pat.data.reverse s.data.reverse

/-- Embedding of `PluginManager.import_plugin` over an abstract plugins root holding the
directory names `dirs`. `names` are the archive entry paths as component
lists, `desc` the JSON decode of the extracted `plugin.json`,
`entryFileExists` the file check inside the extracted directory. Returns
the `(ok, id_or_error)` result, the resulting directories, and the emitted
signals. Residue of a partially failed extraction is not modelled. -/
def import_plugin (dirs : List String) (zipOk : Bool)
    (names : List (List String)) (extractOk : Bool)
    (desc : Option Desc) (entryFileExists : String → Bool) :
    (Bool × String) × List String × List Emit :=
  if !zipOk then ((false, "File is not a valid ZIP archive"), dirs, [])
  else
    let jsonEntries := names.filter
      (fun p => (p.getLast?.map (fun s => strEndsWith s "plugin.json")).getD false)
    match jsonEntries with
    | [] => ((false, "No plugin.json found in archive"), dirs, [])
    | parts :: _ =>
      if parts.length < 2 then
        ((false, "plugin.json must be inside a plugin sub-directory"), dirs, [])
      else
        match parts with
        | [] => ((false, "plugin.json must be inside a plugin sub-directory"), dirs, [])
        | archiveDir :: _ =>
          if archiveDir ∈ dirs then
            ((false, "A plugin directory named \x27" ++ archiveDir ++
              "\x27 already exists. Remove or rename it before importing."), dirs, [])
          else if !extractOk then ((false, "Extraction failed"), dirs, [])
          else
            let dirs1 := dirs ++ [archiveDir]
            match validate_manifest desc entryFileExists with
            | (isValid, errors) =>
              if !isValid then
                ((false, "Invalid plugin: " ++ String.intercalate "; " errors),
                 dirs1.filter (fun d => d ≠ archiveDir), [])
              else
                match desc.bind fromFileDesc with
                | none =>
                  ((false, "Cannot parse manifest: error"),
                   dirs1.filter (fun d => d ≠ archiveDir), [])
                | some m =>
                  if m.id = archiveDir then
                    ((true, m.id), dirs1, [Emit.imported m.id])
                  else if m.id ∈ dirs1 then
                    ((false, "Plugin \x27" ++ m.id ++ "\x27 already exists"),
                     dirs1.filter (fun d => d ≠ archiveDir), [])
                  else
                    ((true, m.id),
                     (dirs1.filter (fun d => d ≠ archiveDir)) ++ [m.id],
                     [Emit.imported m.id])

/-- The public operations and asynchronous callbacks of the Manager, each
packaged with the environment inputs it consults. -/
inductive MgrOp where
  | opLoad (id : String) (env : LoadEnv)
  | opStart (id : String) (spawnOk : Bool)
  | opStop (id : String)
  | opStopAll (exits : String → Bool)
  | opProcessFinished (id : String) (exitCode : Int) (crashExit : Bool)
  | opDelete (id : String) (exitsDuringWait : Bool) (exitCode : Int)
      (crashExit : Bool) (dirExists rmFails : Bool)
  | opReload (id : String) (exitsDuringWait : Bool) (exitCode : Int)
      (crashExit : Bool) (env : LoadEnv) (spawnOk : Bool)

/-- State transition of one Manager operation. -/
def applyOp (st : Mgr) : MgrOp → Mgr
  | MgrOp.opLoad id env => (load st id env).1
  | MgrOp.opStart id spawnOk => (start st id spawnOk).1
  | MgrOp.opStop id => (stop st id).1
  | MgrOp.opStopAll exits => stop_all st exits
  | MgrOp.opProcessFinished id code crash => (handleProcessFinished st id code crash).1
  | MgrOp.opDelete id w code crash de rf => (delete_plugin st id w code crash de rf).1
  | MgrOp.opReload id w code crash env sp => (reload_plugin st id w code crash env sp).1

/-! ## Host-side bridge buffering (`plugin_bridge.py`) -/

/-- The wire message union after JSON decoding, as far as the host
dispatch distinguishes it. -/
inductive WireMsg where
  | dataMsg (key value : String)
  | eventMsg (name : String)
  | commandMsg (cmd : String)
  | otherMsg
  deriving DecidableEq

/-- The newline splitting loop of `_on_ready_read`: returns the complete
lines and the leftover after the last newline. -/
def scanLines : List Char → List (List Char) × List Char
  | [] => ([], [])
  | c :: cs =>
    if c = '\n' then ([] :: (scanLines cs).1, (scanLines cs).2)
    else
      match scanLines cs with
      | ([], rest) => ([], c :: rest)
      | (l :: ls, rest) => ((c :: l) :: ls, rest)

/-- Per-line handling of `_on_ready_read`: strip the line, skip it when
blank, decode it with `loads` (a malformed line decodes to `none` and is
discarded, never fatal), keeping the decoded messages in order. -/
def decodeLines (loads : List Char → Option WireMsg) (ls : List (List Char)) :
    List WireMsg :=
  ls.filterMap (fun l =>
    let t := pyStripList l
    if t.isEmpty then none else loads t)

/-- One `MainBridge._on_ready_read` call: append the chunk to the buffer,
extract complete lines, decode and dispatch them in order. Returns the new
buffer and the dispatched messages. -/
def onReadyRead (loads : List Char → Option WireMsg) (buf chunk : List Char) :
    List Char × List WireMsg :=
  ((scanLines (buf ++ chunk)).2, decodeLines loads (scanLines (buf ++ chunk)).1)

/-- Fold `_on_ready_read` over a sequence of partial reads. -/
def feedChunks (loads : List Char → Option WireMsg) (buf : List Char) :
    List (List Char) → List Char × List WireMsg
  | [] => (buf, [])
  | c :: cs =>
    ((feedChunks loads (onReadyRead loads buf c).1 cs).1,
     (onReadyRead loads buf c).2 ++ (feedChunks loads (onReadyRead loads buf c).1 cs).2)

/-- Embedding of `MainBridge._dispatch`: the data messages become `data_received`
emissions carrying `(key, value)`, in order. -/
def dataDeliveries (msgs : List WireMsg) : List (String × String) :=
  msgs.filterMap (fun m =>
    match m with
    | WireMsg.dataMsg k v => some (k, v)
    | _ => none)

/-- Embedding of `PluginManager._on_data_received` applied to each dispatched message:
a data message reaches the plugin instance `on_data(key, value)` exactly
when the record and its plugin instance exist. -/
def onDataCalls (st : Mgr) (id : String) (msgs : List WireMsg) :
    List (String × String) :=
  msgs.filterMap (fun m =>
    match m with
    | WireMsg.dataMsg k v =>
      match alGet st.records id with
      | some r => if r.hasPlugin then some (k, v) else none
      | none => none
    | _ => none)

/-- The byte stream of a sequence of newline-terminated lines, as the
worker bridge sends them (`payload + "\n"` per message). -/
def joinLines (items : List (List Char)) : List Char :=
  (items.map (fun l => l ++ ['\n'])).flatten

theorem scanLines_fst_nil : ∀ {s : List Char}, (scanLines s).1 = [] → (scanLines s).2 = s := by
  intro s
  induction s with
  | nil => intro _; rfl
  | cons c cs ih =>
    intro h
    by_cases hc : c = '\n'
    · subst hc; simp [scanLines] at h
    · rcases hr : scanLines cs with ⟨ls, rest⟩
      cases ls with
      | nil =>
        have h2 : rest = cs := by
          have := ih (show (scanLines cs).1 = [] by rw [hr])
          rw [hr] at this; exact this
        have hcc : scanLines (c :: cs) = ([], c :: rest) := by
          simp only [scanLines, if_neg hc, hr]
        rw [hcc, h2]
      | cons l ls2 =>
        have hcc : scanLines (c :: cs) = ((c :: l) :: ls2, rest) := by
          simp only [scanLines, if_neg hc, hr]
        rw [hcc] at h
        exact absurd h (List.cons_ne_nil _ _)

theorem scanLines_no_nl : ∀ {s : List Char}, '\n' ∉ s → scanLines s = ([], s) := by
  intro s
  induction s with
  | nil => intro _; rfl
  | cons c cs ih =>
    intro h
    have hc : c ≠ '\n' := by
      intro hcc; exact h (by simp [hcc])
    have hcs : '\n' ∉ cs := by
      intro hm; exact h (List.mem_cons_of_mem _ hm)
    simp only [scanLines, if_neg hc, ih hcs]

theorem scanLines_snd_no_nl : ∀ (s : List Char), '\n' ∉ (scanLines s).2 := by
  intro s
  induction s with
  | nil => simp [scanLines]
  | cons c cs ih =>
    by_cases hc : c = '\n'
    · subst hc; simpa [scanLines] using ih
    · rcases hr : scanLines cs with ⟨ls, rest⟩
      rw [hr] at ih
      cases ls with
      | nil =>
        have hcc : scanLines (c :: cs) = ([], c :: rest) := by
          simp only [scanLines, if_neg hc, hr]
        rw [hcc]
        intro hm
        rcases List.mem_cons.mp hm with h1 | h2
        · exact hc h1.symm
        · exact ih h2
      | cons l ls2 =>
        have hcc : scanLines (c :: cs) = ((c :: l) :: ls2, rest) := by
          simp only [scanLines, if_neg hc, hr]
        rw [hcc]
        exact ih

/-- Splitting a concatenation: the lines of `s ++ t` are the lines of `s`
followed by the lines of the leftover of `s` glued to `t`. -/
theorem scanLines_append : ∀ (s t : List Char),
    scanLines (s ++ t) =
      ((scanLines s).1 ++ (scanLines ((scanLines s).2 ++ t)).1,
       (scanLines ((scanLines s).2 ++ t)).2) := by
  intro s
  induction s with
  | nil => intro t; simp [scanLines]
  | cons c cs ih =>
    intro t
    by_cases hc : c = '\n'
    · subst hc
      have h1 : scanLines (('\n' :: cs) ++ t)
          = ([] :: (scanLines (cs ++ t)).1, (scanLines (cs ++ t)).2) := by
        simp [scanLines]
      have h2 : scanLines ('\n' :: cs)
          = ([] :: (scanLines cs).1, (scanLines cs).2) := by
        simp [scanLines]
      rw [h1, h2, ih t]
      simp
    · rcases hr : scanLines cs with ⟨ls, rest⟩
      cases ls with
      | nil =>
        have hrest : rest = cs := by
          have := scanLines_fst_nil (s := cs) (by rw [hr])
          rw [hr] at this; exact this
        have hcc : scanLines (c :: cs) = ([], c :: cs) := by
          have : scanLines (c :: cs) = ([], c :: rest) := by
            simp only [scanLines, if_neg hc, hr]
          rw [this, hrest]
        rw [hcc]
        simp
      | cons l ls2 =>
        have hcc : scanLines (c :: cs) = ((c :: l) :: ls2, rest) := by
          simp only [scanLines, if_neg hc, hr]
        have hmid : scanLines (cs ++ t)
            = (l :: (ls2 ++ (scanLines (rest ++ t)).1), (scanLines (rest ++ t)).2) := by
          rw [ih t, hr]
          simp
        have lhs1 : scanLines ((c :: cs) ++ t)
            = ((c :: l) :: (ls2 ++ (scanLines (rest ++ t)).1),
               (scanLines (rest ++ t)).2) := by
          show scanLines (c :: (cs ++ t)) = _
          simp only [scanLines, if_neg hc, hmid]
        rw [lhs1, hcc]
        simp

/-- A wholly buffered well-formed stream splits into exactly its lines
with an empty leftover. -/
theorem scanLines_line (l s : List Char) (h : '\n' ∉ l) :
    scanLines (l ++ '\n' :: s) = (l :: (scanLines s).1, (scanLines s).2) := by
  induction l with
  | nil => simp [scanLines]
  | cons c l2 ih =>
    have hc : c ≠ '\n' := by
      intro hcc; exact h (by simp [hcc])
    have hl2 : '\n' ∉ l2 := by
      intro hm; exact h (List.mem_cons_of_mem _ hm)
    have := ih hl2
    simp only [List.cons_append, scanLines, if_neg hc, List.append_eq, this]

theorem scanLines_joinLines : ∀ (items : List (List Char)),
    (∀ l ∈ items, '\n' ∉ l) → scanLines (joinLines items) = (items, []) := by
  intro items
  induction items with
  | nil => intro _; rfl
  | cons l ls ih =>
    intro h
    have h1 : '\n' ∉ l := h l (List.mem_cons_self l ls)
    have h2 : ∀ x ∈ ls, '\n' ∉ x := fun x hx => h x (List.mem_cons_of_mem _ hx)
    have hj : joinLines (l :: ls) = l ++ '\n' :: joinLines ls := by
      simp [joinLines]
    rw [hj, scanLines_line l (joinLines ls) h1, ih h2]

/-- Feeding a chunk sequence equals feeding the concatenated stream in one
read, provided the starting buffer holds no newline (which every
`_on_ready_read` call reestablishes). -/
theorem feedChunks_flatten (loads : List Char → Option WireMsg) :
    ∀ (chunks : List (List Char)) (buf : List Char), '\n' ∉ buf →
      feedChunks loads buf chunks = onReadyRead loads buf chunks.flatten := by
  intro chunks
  induction chunks with
  | nil =>
    intro buf hb
    simp [feedChunks, onReadyRead, scanLines_no_nl hb, decodeLines]
  | cons c cs ih =>
    intro buf hb
    rcases hr : scanLines (buf ++ c) with ⟨ls1, r1⟩
    have hr1 : '\n' ∉ r1 := by
      have := scanLines_snd_no_nl (buf ++ c)
      rw [hr] at this; exact this
    rcases hrr : scanLines (r1 ++ cs.flatten) with ⟨ls2, r2⟩
    have hsplit : scanLines (buf ++ (c :: cs).flatten) = (ls1 ++ ls2, r2) := by
      have h1 := scanLines_append (buf ++ c) cs.flatten
      rw [hr] at h1
      have h2 : scanLines ((buf ++ c) ++ cs.flatten) = (ls1 ++ ls2, r2) := by
        rw [h1]
        have : (( (ls1, r1) : List (List Char) × List Char)).2 = r1 := rfl
        rw [show ((ls1, r1) : List (List Char) × List Char).1 = ls1 from rfl, this, hrr]
      rw [List.flatten_cons, ← List.append_assoc]
      exact h2
    have hl : feedChunks loads buf (c :: cs)
        = ((feedChunks loads r1 cs).1,
           decodeLines loads ls1 ++ (feedChunks loads r1 cs).2) := by
      simp only [feedChunks, onReadyRead, hr]
    rw [hl, ih r1 hr1]
    simp only [onReadyRead, hsplit, hrr, decodeLines, List.filterMap_append]

/-! ## Supporting lemmas -/

theorem alGet_alSet {α : Type} :
    ∀ (l : List (String × α)) (k : String) (v : α), alGet (alSet l k v) k = some v := by
  intro l
  induction l with
  | nil => intro k v; simp [alSet, alGet]
  | cons h t ih =>
    intro k v
    rcases h with ⟨k2, v2⟩
    by_cases hk : k2 = k
    · simp [alSet, alGet, hk]
    · simp only [alSet, if_neg hk]
      simp only [alGet, if_neg hk]
      exact ih k v

theorem mem_alSet {α : Type} :
    ∀ (l : List (String × α)) (k : String) (v : α) (p : String × α),
      p ∈ alSet l k v → p = (k, v) ∨ p ∈ l := by
  intro l
  induction l with
  | nil =>
    intro k v p hp
    simp [alSet] at hp
    left; exact hp
  | cons h t ih =>
    intro k v p hp
    rcases h with ⟨k2, v2⟩
    by_cases hk : k2 = k
    · rw [alSet, if_pos hk] at hp
      rcases List.mem_cons.mp hp with h1 | h2
      · left; exact h1
      · right; exact List.mem_cons_of_mem _ h2
    · rw [alSet, if_neg hk] at hp
      rcases List.mem_cons.mp hp with h1 | h2
      · right; exact h1 ▸ List.mem_cons_self _ _
      · rcases ih k v p h2 with h3 | h4
        · left; exact h3
        · right; exact List.mem_cons_of_mem _ h4

theorem alGet_alRemove {α : Type} :
    ∀ (l : List (String × α)) (k : String), alGet (alRemove l k) k = none := by
  intro l
  induction l with
  | nil => intro k; rfl
  | cons h t ih =>
    intro k
    rcases h with ⟨k2, v2⟩
    by_cases hk : k2 = k
    · subst hk
      have := ih k2
      simp only [alRemove] at this ⊢
      simp only [List.filter_cons]
      simpa using this
    · simp only [alRemove, List.filter_cons]
      have : (decide ((k2, v2).1 ≠ k)) = true := by simp [hk]
      rw [this]
      simp only [alGet, if_neg hk]
      exact ih k

theorem filter_ne_of_not_mem (l : List String) (a : String) (h : a ∉ l) :
    l.filter (fun x => x ≠ a) = l := by
  induction l with
  | nil => rfl
  | cons x t ih =>
    have hx : x ≠ a := by
      intro hxa; exact h (hxa ▸ List.mem_cons_self x t)
    have ht : a ∉ t := fun hm => h (List.mem_cons_of_mem _ hm)
    rw [List.filter_cons, if_pos (show (decide (x ≠ a)) = true by simp [hx]), ih ht]

theorem not_mem_setDiscard (l : List String) (id : String) :
    id ∉ setDiscard l id := by
  intro hm
  rcases List.mem_filter.mp hm with ⟨_, hdec⟩
  simp at hdec

/-- Pointwise element translation distributes over the two filterMap views
of a decorated list. -/
theorem filterMap_fst_eq {α γ : Type} (f : α → Option γ) :
    ∀ (items : List (α × Option γ)), (∀ p ∈ items, f p.1 = p.2) →
      (items.map Prod.fst).filterMap f = items.filterMap Prod.snd := by
  intro items
  induction items with
  | nil => intro _; rfl
  | cons p t ih =>
    intro h
    have hp : f p.1 = p.2 := h p (List.mem_cons_self _ _)
    have ht : ∀ q ∈ t, f q.1 = q.2 := fun q hq => h q (List.mem_cons_of_mem _ hq)
    simp only [List.map_cons, List.filterMap_cons, hp, ih ht]

/-- When the record and its plugin instance exist, every dispatched data
message produces exactly one `on_data` call. -/
theorem onDataCalls_eq (st : Mgr) (id : String) (r : PluginRec)
    (hr : alGet st.records id = some r) (hp : r.hasPlugin = true) :
    ∀ (msgs : List WireMsg), onDataCalls st id msgs = dataDeliveries msgs := by
  intro msgs
  simp only [onDataCalls, dataDeliveries, hr, hp, if_true]

theorem alGet_record_crash (states : StateMap) (id : String) :
    alGet (record_crash states id) id
      = some { (stateGetIns states id).2 with
                 crash_count := (stateGetIns states id).2.crash_count + 1 } := by
  unfold record_crash
  rcases h : stateGetIns states id with ⟨sts, s⟩
  simp [alGet_alSet, h]

/-! ## The process-liveness invariant (forward direction) -/

/-- A record is sound when being active implies a live process handle. -/
def recOk (r : PluginRec) : Prop :=
  r.active = true → r.hasProcess = true ∧ r.processRunning = true

def recsOk (l : List (String × PluginRec)) : Prop := ∀ p ∈ l, recOk p.2

/-- Invariant: `active = true` implies a live worker process handle. -/
def procInv (st : Mgr) : Prop := recsOk st.records

theorem recsOk_alSet {l : List (String × PluginRec)} {k : String} {r : PluginRec}
    (h : recsOk l) (hr : recOk r) : recsOk (alSet l k r) := by
  intro p hp
  rcases mem_alSet l k r p hp with h1 | h2
  · rw [h1]; exact hr
  · exact h p h2

theorem recsOk_filter {l : List (String × PluginRec)} (f : String × PluginRec → Bool)
    (h : recsOk l) : recsOk (l.filter f) := by
  intro p hp
  exact h p (List.mem_filter.mp hp).1

theorem recOk_inactive {r : PluginRec} (h : r.active = false) : recOk r := by
  intro ha
  rw [h] at ha
  exact absurd ha (by simp)

theorem load_inv (st : Mgr) (id : String) (env : LoadEnv) (h : procInv st) :
    procInv (load st id env).1 := by
  unfold load procInv
  split
  · exact h
  · split
    · exact h
    · split
      · exact h
      · split
        · exact h
        · split
          · exact recsOk_filter _ (recsOk_alSet h (recOk_inactive rfl))
          · exact recsOk_alSet (recsOk_alSet h (recOk_inactive rfl)) (recOk_inactive rfl)

theorem start_inv (st : Mgr) (id : String) (sp : Bool) (h : procInv st) :
    procInv (start st id sp).1 := by
  unfold start procInv
  split
  · exact h
  · next r heq =>
    split
    · exact h
    · next hra =>
      split
      · exact recsOk_alSet h (recOk_inactive (by simpa using hra))
      · exact recsOk_alSet h (fun _ => ⟨rfl, rfl⟩)

theorem stop_inv (st : Mgr) (id : String) (h : procInv st) : procInv (stop st id).1 := by
  unfold stop procInv
  split
  · exact h
  · split
    · exact h
    · exact recsOk_alSet h (recOk_inactive rfl)

theorem handle_inv (st : Mgr) (id : String) (code : Int) (crash : Bool) (h : procInv st) :
    procInv (handleProcessFinished st id code crash).1 := by
  unfold handleProcessFinished procInv
  dsimp only
  split
  · exact h
  · split
    · exact recsOk_alSet h (recOk_inactive rfl)
    · split
      · exact recsOk_alSet h (recOk_inactive rfl)
      · exact recsOk_alSet h (recOk_inactive rfl)

theorem stopAllStep_inv (exits : String → Bool) (st : Mgr) (id : String) (h : procInv st) :
    procInv (stopAllStep exits st id) := by
  unfold stopAllStep
  split
  · exact h
  · split
    · exact h
    · split
      · exact handle_inv _ _ _ _ (recsOk_alSet h (recOk_inactive rfl))
      · exact recsOk_alSet h (recOk_inactive rfl)

theorem foldl_stopAllStep_inv (exits : String → Bool) :
    ∀ (ids : List String) (st : Mgr), procInv st →
      procInv (ids.foldl (stopAllStep exits) st) := by
  intro ids
  induction ids with
  | nil => intro st h; exact h
  | cons i t ih => intro st h; exact ih _ (stopAllStep_inv exits st i h)

theorem stop_all_inv (st : Mgr) (exits : String → Bool) (h : procInv st) :
    procInv (stop_all st exits) :=
  foldl_stopAllStep_inv exits _ st h

theorem stopWait_inv (st : Mgr) (id : String) (w : Bool) (code : Int) (crash : Bool)
    (h : procInv st) : procInv (stopAndWait st id w code crash) := by
  unfold stopAndWait
  dsimp only
  split
  · split
    · exact handle_inv _ _ _ _ (stop_inv st id h)
    · exact stop_inv st id h
  · exact h

theorem delete_fst (st : Mgr) (id : String) (w : Bool) (code : Int) (crash : Bool)
    (de rf : Bool) :
    (delete_plugin st id w code crash de rf).1 =
      { stopAndWait st id w code crash with
          records := alRemove (stopAndWait st id w code crash).records id,
          states := stateRemove (stopAndWait st id w code crash).states id } := by
  cases de <;> cases rf <;> rfl

theorem delete_inv (st : Mgr) (id : String) (w : Bool) (code : Int) (crash : Bool)
    (de rf : Bool) (h : procInv st) :
    procInv (delete_plugin st id w code crash de rf).1 := by
  rw [delete_fst]
  exact recsOk_filter _ (stopWait_inv st id w code crash h)

theorem loadStart_inv (st : Mgr) (id : String) (env : LoadEnv) (sp wasActive : Bool)
    (h : procInv st) :
    procInv (match load st id env with
      | (st3, em, ok) =>
        if !ok then (st3, em, false)
        else if wasActive then
          match start st3 id sp with
          | (st4, em2, ok2) => (st4, em ++ em2, ok2)
        else (st3, em, true)).1 := by
  split
  next st3 em ok hload =>
    have h3 : procInv st3 := by
      have h4 := load_inv st id env h
      rw [hload] at h4
      exact h4
    split
    · exact h3
    · split
      · split
        next st4 em2 ok2 hstart =>
          have h5 := start_inv st3 id sp h3
          rw [hstart] at h5
          exact h5
      · exact h3

theorem reload_inv (st : Mgr) (id : String) (w : Bool) (code : Int) (crash : Bool)
    (env : LoadEnv) (sp : Bool) (h : procInv st) :
    procInv (reload_plugin st id w code crash env sp).1 := by
  have h1 := stopWait_inv st id w code crash h
  exact loadStart_inv
    { stopAndWait st id w code crash with
        records := alRemove (stopAndWait st id w code crash).records id }
    id env sp (is_active st id) (recsOk_filter _ h1)

/-! ## Concrete fixtures -/

def demoManifest : PluginManifest :=
  ⟨"clock", "Clock", "1.0.0", "demo", "nova", "extension", "plugin_main.Plugin"⟩

/-- A loaded, active record with a live worker process. -/
def demoRec : PluginRec :=
  ⟨demoManifest, true, true, true, true, "nova_clock_0", 0, true⟩

def demoMgr : Mgr :=
  ⟨[("clock", demoRec)], [], [("clock", ⟨true, false, 1, 0⟩)], 1⟩

/-- Same state with the intentional-stop marker present for the id. -/
def demoMgrMarked : Mgr :=
  ⟨[("clock", demoRec)], ["clock"], [("clock", ⟨true, false, 1, 0⟩)], 1⟩

/-- One crash of the active worker followed by the scheduled restart timer
firing, i.e. `start()` being invoked again with the respawn succeeding. -/
def crashThenRestart (st : Mgr) : Mgr :=
  (start (handleProcessFinished st "clock" 1 true).1 "clock" true).1

/-! ## Claims -/

/-- C1: the spec demands that after 3 consecutive crash-triggered restarts
a 4th consecutive crash triggers no automatic restart and leaves
`restart_count = 4`. The embedded code refutes this: each crash-scheduled
restart goes through `start()`, which resets `restart_count` to 0, so the
4th consecutive crash still finds `restart_count = 0`, increments it to 1,
and schedules yet another restart — the give-up branch is unreachable for
consecutive crashes. This theorem evaluates the code on the failing
input (four consecutive crashes with restarts in between). -/
theorem claim1_fourth_crash_still_restarts :
    (handleProcessFinished (crashThenRestart (crashThenRestart (crashThenRestart demoMgr)))
        "clock" 1 true).2.2 = [Sched.restartStart "clock" 2000] ∧
    (alGet (handleProcessFinished (crashThenRestart (crashThenRestart (crashThenRestart demoMgr)))
        "clock" 1 true).1.records "clock").map PluginRec.restart_count = some 1 := by
  decide

/-- C2 counterexample: a worker exit with exit code 0 and a normal exit
status, while the record is active and no intentional stop is marked, is
not classified as a crash — the manager emits the stopped signal, records
no crash, and schedules no restart. This refutes the claim that such an
exit is classified as a crash regardless of the raw exit code and status. -/
theorem claim2_counterexample :
    is_active demoMgr "clock" = true ∧ demoMgr.intentional_stops = [] ∧
    (handleProcessFinished demoMgr "clock" 0 false).2.1 = [Emit.stopped "clock"] ∧
    (handleProcessFinished demoMgr "clock" 0 false).2.2 = [] ∧
    (alGet (handleProcessFinished demoMgr "clock" 0 false).1.states "clock").map
        PluginState.crash_count = some 0 := by
  decide

/-- C2 (amended): a process exit while `active = true` and the id not
marked as an intentional stop is classified as a crash exactly when the
exit status is CrashExit or the exit code is nonzero (crash recorded,
crash notification emitted, restart considered); an exit with a normal
status and code 0 is instead treated as a normal stop — the stopped
notification is emitted, no crash is recorded, and no restart is
scheduled. -/
theorem claim2_crash_classification (st : Mgr) (id : String) (r : PluginRec)
    (code : Int) (crash : Bool)
    (hr : alGet st.records id = some r) (ha : r.active = true)
    (hni : id ∉ st.intentional_stops) :
    ((crash = true ∨ code ≠ 0) →
      (handleProcessFinished st id code crash).2.1
        = [Emit.crashed id (crashMsg id code (r.restart_count + 1))] ∧
      (alGet (handleProcessFinished st id code crash).1.states id).map
          PluginState.crash_count
        = some ((stateGetIns st.states id).2.crash_count + 1) ∧
      ((handleProcessFinished st id code crash).2.2 = [Sched.restartStart id 2000]
        ↔ r.restart_count + 1 ≤ _MAX_RESTARTS)) ∧
    (crash = false → code = 0 →
      (handleProcessFinished st id code crash).2.1 = [Emit.stopped id] ∧
      (handleProcessFinished st id code crash).2.2 = [] ∧
      (handleProcessFinished st id code crash).1.states = st.states) := by
  unfold handleProcessFinished
  rw [hr]
  dsimp only
  rw [if_neg hni, ha]
  constructor
  · intro hc
    have hcond : (true && (crash || code != 0)) = true := by
      rcases hc with h | h
      · simp [h]
      · simp [h]
    rw [if_pos hcond]
    refine ⟨rfl, ?_, ?_⟩
    · dsimp only
      rw [alGet_record_crash]
      rfl
    · by_cases hle : r.restart_count + 1 ≤ _MAX_RESTARTS
      · simp [hle]
      · simp [hle]
  · intro hcr hc0
    subst hcr; subst hc0
    rw [if_neg (by decide)]
    exact ⟨rfl, rfl, rfl⟩

/-- C2 witness: the amended classification applied to a concrete crash
exit (code 1, CrashExit) of the demo state. -/
theorem claim2_witness :
    (handleProcessFinished demoMgr "clock" 1 true).2.1
      = [Emit.crashed "clock" (crashMsg "clock" 1 1)] ∧
    (alGet (handleProcessFinished demoMgr "clock" 1 true).1.states "clock").map
        PluginState.crash_count = some 1 := by
  have h := claim2_crash_classification demoMgr "clock" demoRec 1 true
    (by decide) (by decide) (by decide)
  have h2 := h.1 (Or.inl rfl)
  exact ⟨h2.1, h2.2.1.trans (by decide)⟩

/-- A descriptor whose id violates the slug pattern but which parses
fine (all required fields present and non-blank). -/
def badDesc : Desc :=
  [("id", "Bad-ID!"), ("name", "Bad Plugin"), ("version", "1.0.0"),
   ("description", "x"), ("author", "y"), ("entry", "plugin_main.Plugin")]

/-- C3 counterexample: the id `Bad-ID!` violates the slug pattern, yet the
manifest parsed from such a descriptor appears in the result of
`discover()` — `discover` never runs `validate_manifest`, so the claim
that this descriptor is excluded from the scan result is false. -/
theorem claim3_counterexample :
    idMatches "Bad-ID!" = false ∧
    (discover [some badDesc]).map PluginManifest.id = ["Bad-ID!"] := by
  decide

/-- C3 (amended): `discover()` skips only descriptors whose parse raises
(undecodable JSON or a missing `id`/`name` key), never aborting the scan,
and applies no validation rules; a parseable descriptor with a slug
violating id is still returned. The id-pattern rule with its distinct
reason lives in `validate_manifest` (run during import), which rejects the
`Bad-ID!` descriptor with exactly the id-pattern reason, whatever the
entry-file check would report. -/
theorem claim3_discover_validation
    (files1 files2 : List (Option Desc)) (bad : Option Desc)
    (hbad : bad.bind fromFileDesc = none) (f : String → Bool) :
    discover (files1 ++ bad :: files2) = discover files1 ++ discover files2 ∧
    validate_manifest (some badDesc) f = (false, [idPatternMsg]) := by
  constructor
  · simp [discover, List.filterMap_append, List.filterMap_cons, hbad]
  · have h1 : requiredFieldErrors badDesc = [] := by decide
    have h2 : descGetD badDesc "id" "" = "Bad-ID!" := by decide
    have h3 : descGetD badDesc "version" "" = "1.0.0" := by decide
    have h4 : descGetD badDesc "entry" "" = "plugin_main.Plugin" := by decide
    have hid : idMatches "Bad-ID!" = false := by decide
    have hsem : semverMatches "1.0.0" = true := by decide
    have hent : entryMatches "plugin_main.Plugin" = true := by decide
    have h5 : "Bad-ID!".isEmpty = false := by decide
    have h6 : "1.0.0".isEmpty = false := by decide
    have h7 : "plugin_main.Plugin".isEmpty = false := by decide
    simp [validate_manifest, h1, h2, h3, h4, hid, hsem, hent, h5, h6, h7]

/-- C3 witness: the amended statement applied to a parse-failing
descriptor in an otherwise empty scan. -/
theorem claim3_witness :
    discover ([] ++ none :: []) = discover [] ++ discover [] ∧
    validate_manifest (some badDesc) (fun _ => true) = (false, [idPatternMsg]) :=
  claim3_discover_validation [] [] none rfl (fun _ => true)

/-- C4 counterexample: stopping the active demo plugin and then starting
it again succeeds and spawns a new worker process generation, yet the
channel (socket) name is exactly the one of the previous generation — the
claim that a stop/start cycle produces a different channel name is false. -/
theorem claim4_counterexample :
    (start (stop demoMgr "clock").1 "clock" true).2.2 = true ∧
    (alGet (start (stop demoMgr "clock").1 "clock" true).1.records "clock").map
        PluginRec.socket_name
      = (alGet demoMgr.records "clock").map PluginRec.socket_name := by
  decide

/-- C4 (amended): `stop(id)` followed by a successful `start(id)` reuses
the record's existing channel name unchanged — no fresh name is generated
by `start()`. A fresh channel name is generated only by `load()` (hence by
`reload_plugin()`, which discards the record and loads again): loading an
unloaded id draws the next fresh suffix and bumps the generation
counter. -/
theorem claim4_socket_reuse (st : Mgr) (id : String) (r : PluginRec)
    (hr : alGet st.records id = some r) (ha : r.active = true) :
    (start (stop st id).1 id true).2.2 = true ∧
    (alGet (start (stop st id).1 id true).1.records id).map PluginRec.socket_name
      = some r.socket_name ∧
    (∀ (st2 : Mgr) (id2 : String) (m : PluginManifest),
      alGet st2.records id2 = none →
      (alGet (load st2 id2 ⟨some m, true, true, true⟩).1.records id2).map
          PluginRec.socket_name = some (mkSocketName id2 st2.uuidCtr) ∧
      (load st2 id2 ⟨some m, true, true, true⟩).1.uuidCtr = st2.uuidCtr + 1) := by
  have hstop : (stop st id).1 =
      { st with records := alSet st.records id { r with active := false },
                intentional_stops := setAdd st.intentional_stops id } := by
    unfold stop
    rw [hr]
    dsimp only
    rw [ha]
    rfl
  have hget : alGet (stop st id).1.records id = some { r with active := false } := by
    rw [hstop]
    exact alGet_alSet st.records id _
  refine ⟨?_, ?_, ?_⟩
  · simp [start, hget]
  · simp [start, hget, alGet_alSet]
  · intro st2 id2 m hnone
    simp [load, hnone, alGet_alSet]

/-- C4 witness: the amended statement at the demo state. -/
theorem claim4_witness :
    (start (stop demoMgr "clock").1 "clock" true).2.2 = true ∧
    (alGet (start (stop demoMgr "clock").1 "clock" true).1.records "clock").map
        PluginRec.socket_name = some demoRec.socket_name := by
  have h := claim4_socket_reuse demoMgr "clock" demoRec (by decide) (by decide)
  exact ⟨h.1, h.2.1⟩

/-- C5: delete_plugin always leaves the id not active, not loaded, and
with no persisted state entry; when the plugin directory exists and its
removal fails, the call additionally returns ok = false with the distinct
filesystem-failure reason and emits no deleted signal, even though the
record and state cleanup has already happened. -/
theorem claim5_delete_cleanup (st : Mgr) (id : String)
    (w : Bool) (code : Int) (crash : Bool) (de rf : Bool) :
    is_active (delete_plugin st id w code crash de rf).1 id = false ∧
    is_loaded (delete_plugin st id w code crash de rf).1 id = false ∧
    alGet (delete_plugin st id w code crash de rf).1.states id = none ∧
    rmFailMsg ≠ "" ∧
    (de = true → rf = true →
      (delete_plugin st id w code crash de rf).2.2 = (false, rmFailMsg) ∧
      (delete_plugin st id w code crash de rf).2.1 = []) := by
  refine ⟨?_, ?_, ?_, by decide, ?_⟩
  · rw [delete_fst]
    simp [is_active, alGet_alRemove]
  · rw [delete_fst]
    simp [is_loaded, alGet_alRemove]
  · rw [delete_fst]
    simp only [stateRemove]
    exact alGet_alRemove _ _
  · intro hde hrf
    subst hde; subst hrf
    exact ⟨rfl, rfl⟩

/-- C5 witness: deleting the loaded demo plugin while directory removal
fails. -/
theorem claim5_witness :
    is_active (delete_plugin demoMgr "clock" false 0 false true true).1 "clock" = false ∧
    is_loaded (delete_plugin demoMgr "clock" false 0 false true true).1 "clock" = false ∧
    (delete_plugin demoMgr "clock" false 0 false true true).2.2 = (false, rmFailMsg) := by
  have h := claim5_delete_cleanup demoMgr "clock" false 0 false true true
  exact ⟨h.1, h.2.1, (h.2.2.2.2 rfl rfl).1⟩

/-- The residual behavior of `import_plugin` for a well-formed single-dir
archive after the zip and descriptor-location prelude has been resolved. -/
theorem import_plugin_layout (d : List String) (archiveDir : String)
    (desc : Option Desc) (f : String → Bool) :
    import_plugin d true [[archiveDir, "plugin.json"]] true desc f
      = (if archiveDir ∈ d then
          ((false, "A plugin directory named \x27" ++ archiveDir ++
            "\x27 already exists. Remove or rename it before importing."), d, [])
        else
          match validate_manifest desc f with
          | (isValid, errors) =>
            if !isValid then
              ((false, "Invalid plugin: " ++ String.intercalate "; " errors),
               (d ++ [archiveDir]).filter (fun x => x ≠ archiveDir), [])
            else
              match desc.bind fromFileDesc with
              | none =>
                ((false, "Cannot parse manifest: error"),
                 (d ++ [archiveDir]).filter (fun x => x ≠ archiveDir), [])
              | some m =>
                if m.id = archiveDir then
                  ((true, m.id), d ++ [archiveDir], [Emit.imported m.id])
                else if m.id ∈ d ++ [archiveDir] then
                  ((false, "Plugin \x27" ++ m.id ++ "\x27 already exists"),
                   (d ++ [archiveDir]).filter (fun x => x ≠ archiveDir), [])
                else
                  ((true, m.id),
                   ((d ++ [archiveDir]).filter (fun x => x ≠ archiveDir)) ++ [m.id],
                   [Emit.imported m.id])) := by
  unfold import_plugin
  rw [if_neg (show ¬((!true) = true) by simp)]
  rw [List.filter_cons,
    show (([archiveDir, "plugin.json"] : List String).getLast? : Option String)
      = some "plugin.json" from rfl,
    if_pos (show (((some "plugin.json" : Option String)).map
      (fun s => strEndsWith s "plugin.json")).getD false = true by decide),
    List.filter_nil]
  dsimp only
  rw [if_neg (show ¬(([archiveDir, "plugin.json"] : List String).length < 2) from
    lt_irrefl 2)]
  simp

/-- C6: import_plugin (i) rejects an archive whose target directory name
already exists on disk, changing nothing; (ii) when the extracted manifest
fails validation, deletes the just-extracted directory and rejects; and
(iii) when the declared id differs from the archive directory name but a
directory with that id already exists, rejects, removes the extracted
copy, and leaves the existing plugin directory in place. -/
theorem claim6_import_rejections (dirs : List String) (archiveDir : String)
    (desc : Option Desc) (f : String → Bool) :
    (archiveDir ∈ dirs →
      (import_plugin dirs true [[archiveDir, "plugin.json"]] true desc f).1.1 = false ∧
      (import_plugin dirs true [[archiveDir, "plugin.json"]] true desc f).2.1 = dirs ∧
      (import_plugin dirs true [[archiveDir, "plugin.json"]] true desc f).2.2 = []) ∧
    (archiveDir ∉ dirs → (validate_manifest desc f).1 = false →
      (import_plugin dirs true [[archiveDir, "plugin.json"]] true desc f).1.1 = false ∧
      (import_plugin dirs true [[archiveDir, "plugin.json"]] true desc f).2.1 = dirs) ∧
    (∀ m : PluginManifest, archiveDir ∉ dirs →
      validate_manifest desc f = (true, []) →
      desc.bind fromFileDesc = some m → m.id ≠ archiveDir → m.id ∈ dirs →
      (import_plugin dirs true [[archiveDir, "plugin.json"]] true desc f).1.1 = false ∧
      (import_plugin dirs true [[archiveDir, "plugin.json"]] true desc f).2.1 = dirs ∧
      m.id ∈ (import_plugin dirs true [[archiveDir, "plugin.json"]] true desc f).2.1) := by
  refine ⟨?_, ?_, ?_⟩
  · intro hmem
    rw [import_plugin_layout, if_pos hmem]
    exact ⟨rfl, rfl, rfl⟩
  · intro hnm hinv
    have hclean : (dirs ++ [archiveDir]).filter (fun x => x ≠ archiveDir) = dirs := by
      rw [List.filter_append, filter_ne_of_not_mem dirs archiveDir hnm]
      simp
    rcases hv : validate_manifest desc f with ⟨isV, errs⟩
    rw [hv] at hinv
    dsimp only at hinv
    subst hinv
    rw [import_plugin_layout, if_neg hnm, hv]
    dsimp only
    rw [if_pos (show (!false) = true from rfl)]
    exact ⟨rfl, hclean⟩
  · intro m hnm hv hff hne hmem
    have hclean : (dirs ++ [archiveDir]).filter (fun x => x ≠ archiveDir) = dirs := by
      rw [List.filter_append, filter_ne_of_not_mem dirs archiveDir hnm]
      simp
    rw [import_plugin_layout, if_neg hnm, hv]
    dsimp only
    rw [if_neg (show ¬((!true) = true) by simp), hff]
    dsimp only
    rw [if_neg hne, if_pos (List.mem_append_left [archiveDir] hmem)]
    refine ⟨rfl, hclean, ?_⟩
    dsimp only
    rw [hclean]
    exact hmem

/-- A valid descriptor declaring id `clock`, used inside an archive whose
top-level directory name differs from that id. -/
def goodDescClock : Desc :=
  [("id", "clock"), ("name", "Clock"), ("version", "1.0.0"),
   ("description", "d"), ("author", "a"), ("entry", "plugin_main.Plugin")]

def goodManifestClock : PluginManifest :=
  ⟨"clock", "Clock", "1.0.0", "d", "a", "extension", "plugin_main.Plugin"⟩

/-- C6 witness: the rejection scenarios exercised concretely — an
archive colliding with an existing directory name, and an archive whose
manifest declares the id of another existing plugin. -/
theorem claim6_witness :
    (import_plugin ["p"] true [["p", "plugin.json"]] true (some badDesc)
        (fun _ => true)).2.1 = ["p"] ∧
    (import_plugin ["clock"] true [["q", "plugin.json"]] true
        (some goodDescClock) (fun _ => true)).1.1 = false ∧
    (import_plugin ["clock"] true [["q", "plugin.json"]] true
        (some goodDescClock) (fun _ => true)).2.1 = ["clock"] := by
  have h1 := claim6_import_rejections ["p"] "p" (some badDesc) (fun _ => true)
  have h2 := claim6_import_rejections ["clock"] "q" (some goodDescClock)
    (fun _ => true)
  have h3 := h2.2.2 goodManifestClock (by decide) (by decide) (by decide)
    (by decide) (by decide)
  exact ⟨(h1.1 (by decide)).2.1, h3.1, h3.2.1⟩

/-- C7: over any chunking of the byte stream formed by a sequence of
newline-terminated lines — each line either decoding to a message or being
blank/malformed — the host bridge dispatches exactly the well-decoded
messages, in send order, each exactly once; malformed lines are discarded
without breaking the connection or affecting later messages; and each
dispatched data message produces exactly one `on_data(key, value)` call on
the host-side plugin instance when the record and its plugin exist. -/
theorem claim7_ordered_delivery (loads : List Char → Option WireMsg)
    (items : List (List Char × Option WireMsg))
    (chunks : List (List Char)) (st : Mgr) (id : String) (r : PluginRec)
    (hitems : ∀ p ∈ items, '\n' ∉ p.1 ∧
      (((pyStripList p.1).isEmpty = true ∧ p.2 = none) ∨
       ((pyStripList p.1).isEmpty = false ∧ loads (pyStripList p.1) = p.2)))
    (hstream : chunks.flatten = joinLines (items.map Prod.fst))
    (hr : alGet st.records id = some r) (hp : r.hasPlugin = true) :
    (feedChunks loads [] chunks).2 = items.filterMap Prod.snd ∧
    onDataCalls st id (feedChunks loads [] chunks).2
      = dataDeliveries (items.filterMap Prod.snd) := by
  have hnl : ∀ l ∈ items.map Prod.fst, '\n' ∉ l := by
    intro l hl
    rcases List.mem_map.mp hl with ⟨p, hp2, rfl⟩
    exact (hitems p hp2).1
  have h1 : feedChunks loads [] chunks = onReadyRead loads [] chunks.flatten :=
    feedChunks_flatten loads chunks [] (by simp)
  have h2 : scanLines ([] ++ chunks.flatten) = (items.map Prod.fst, []) := by
    rw [List.nil_append, hstream]
    exact scanLines_joinLines _ hnl
  have h3 : (feedChunks loads [] chunks).2 = decodeLines loads (items.map Prod.fst) := by
    rw [h1]
    unfold onReadyRead
    rw [h2]
  have h4 : decodeLines loads (items.map Prod.fst) = items.filterMap Prod.snd := by
    unfold decodeLines
    apply filterMap_fst_eq
    intro p hp2
    rcases (hitems p hp2).2 with ⟨he, hn⟩ | ⟨he, hl⟩
    · simp [he, hn]
    · simp [he, hl]
  refine ⟨h3.trans h4, ?_⟩
  rw [h3.trans h4, onDataCalls_eq st id r hr hp]

/-- A simple concrete line decode to instantiate the delivery theorem: a
line starting with `d` decodes to a data message whose value is the rest
of the line, anything else is malformed. -/
def demoLoads : List Char → Option WireMsg
  | 'd' :: rest => some (WireMsg.dataMsg "k" (String.mk rest))
  | _ => none

def demoItems : List (List Char × Option WireMsg) :=
  [(['d', '1'], some (WireMsg.dataMsg "k" "1")),
   (['z', 'z'], none),
   (['d', '2'], some (WireMsg.dataMsg "k" "2"))]

/-- The stream of `demoItems` split at boundaries unrelated to message
boundaries. -/
def demoChunks : List (List Char) :=
  [['d'], ['1', '\n', 'z'], ['z', '\n', 'd', '2', '\n']]

/-- C7 witness: two data messages around one malformed line, the stream
split across three partial reads. -/
theorem claim7_witness :
    (feedChunks demoLoads [] demoChunks).2
      = [WireMsg.dataMsg "k" "1", WireMsg.dataMsg "k" "2"] ∧
    onDataCalls demoMgr "clock" (feedChunks demoLoads [] demoChunks).2
      = [("k", "1"), ("k", "2")] := by
  have h := claim7_ordered_delivery demoLoads demoItems demoChunks demoMgr "clock"
    demoRec (by decide) (by decide) (by decide) (by decide)
  exact ⟨h.1.trans (by decide), h.2.trans (by decide)⟩

/-- C8: `stop(id)` on an active record records the intentional-stop
marker as its first effect, strictly before the active-flag mutation, any
stop command, and any OS termination signal; and when the exit handler
runs with the marker present it consumes the marker, takes no restart
action, and emits nothing, regardless of exit code and exit status. -/
theorem claim8_intentional_stop (st : Mgr) (id : String) (r : PluginRec)
    (code : Int) (crash : Bool)
    (hr : alGet st.records id = some r) (ha : r.active = true)
    (hm : id ∈ st.intentional_stops) :
    (stop st id).2.head? = some (Effect.markIntentional id) ∧
    (handleProcessFinished st id code crash).2.1 = [] ∧
    (handleProcessFinished st id code crash).2.2 = [] ∧
    id ∉ (handleProcessFinished st id code crash).1.intentional_stops := by
  constructor
  · unfold stop
    rw [hr]
    dsimp only
    rw [ha, if_neg (show ¬((!true) = true) by simp)]
    by_cases hb : r.hasBridge = true <;>
      by_cases hpr : (r.hasProcess && r.processRunning) = true <;>
        simp [hb, hpr]
  · unfold handleProcessFinished
    rw [hr]
    dsimp only
    rw [if_pos hm]
    exact ⟨rfl, rfl, not_mem_setDiscard _ _⟩

/-- C8 witness: the demo state with the marker present and the record
active (stop was requested, then the process exits). -/
theorem claim8_witness :
    (stop demoMgrMarked "clock").2.head? = some (Effect.markIntentional "clock") ∧
    (handleProcessFinished demoMgrMarked "clock" 1 true).2.1 = [] ∧
    (handleProcessFinished demoMgrMarked "clock" 1 true).2.2 = [] ∧
    "clock" ∉ (handleProcessFinished demoMgrMarked "clock" 1 true).1.intentional_stops := by
  have h := claim8_intentional_stop demoMgrMarked "clock" demoRec 1 true
    (by decide) (by decide) (by decide)
  exact h

/-- C9 counterexample: after the public operation `stop()` on the active
demo plugin, the record has `active = false` while the process handle
still exists and the process is still running (termination completes
asynchronously) — refuting that `active = false` implies no process
handle or a fully reaped process after every public Manager operation. -/
theorem claim9_counterexample :
    (alGet (applyOp demoMgr (MgrOp.opStop "clock")).records "clock").map
        PluginRec.active = some false ∧
    (alGet (applyOp demoMgr (MgrOp.opStop "clock")).records "clock").map
        PluginRec.hasProcess = some true ∧
    (alGet (applyOp demoMgr (MgrOp.opStop "clock")).records "clock").map
        PluginRec.processRunning = some true := by
  decide

/-- C9 (amended): the forward direction holds as an invariant — after
every public Manager operation and every exit callback, `active = true`
implies a live worker process handle exists; the reverse direction fails
during the asynchronous termination window, where an inactive record may
still hold a running process. -/
theorem claim9_active_implies_process (st : Mgr) (op : MgrOp) (h : procInv st) :
    procInv (applyOp st op) := by
  cases op with
  | opLoad id env => exact load_inv st id env h
  | opStart id sp => exact start_inv st id sp h
  | opStop id => exact stop_inv st id h
  | opStopAll exits => exact stop_all_inv st exits h
  | opProcessFinished id code crash => exact handle_inv st id code crash h
  | opDelete id w code crash de rf => exact delete_inv st id w code crash de rf h
  | opReload id w code crash env sp => exact reload_inv st id w code crash env sp h

/-- C9 witness: the invariant is preserved by a concrete start operation
from the demo state. -/
theorem claim9_witness : procInv (applyOp demoMgr (MgrOp.opStart "clock" true)) := by
  apply claim9_active_implies_process
  intro p hp
  have hp2 : p = ("clock", demoRec) := List.mem_singleton.mp hp
  rw [hp2]
  intro _
  exact ⟨rfl, rfl⟩

theorem alRemove_of_none {α : Type} : ∀ (l : List (String × α)) (k : String),
    alGet l k = none → alRemove l k = l := by
  intro l
  induction l with
  | nil => intro k _; rfl
  | cons p t ih =>
    intro k hk
    rcases p with ⟨k2, v⟩
    rw [alGet] at hk
    by_cases he : k2 = k
    · rw [if_pos he] at hk
      exact absurd hk (by simp)
    · rw [if_neg he] at hk
      have ht := ih k hk
      simp only [alRemove, List.filter_cons] at ht ⊢
      rw [if_pos (show (decide ((k2, v).1 ≠ k)) = true by simp [he]), ht]

/-- C10: deleting an id that is not loaded (hence not active) and whose
plugin directory does not exist reports success rather than an error:
`delete_plugin` returns `(true, "")`, emits the plugin-deleted
notification, and leaves the record map unchanged. -/
theorem claim10_delete_unknown_ok (st : Mgr) (id : String)
    (w : Bool) (code : Int) (crash : Bool) (rf : Bool)
    (h : alGet st.records id = none) :
    (delete_plugin st id w code crash false rf).2.2 = (true, "") ∧
    (delete_plugin st id w code crash false rf).2.1 = [Emit.deleted id] ∧
    (delete_plugin st id w code crash false rf).1.records = st.records := by
  have hact : is_active st id = false := by
    unfold is_active
    rw [h]
  have hsw : stopAndWait st id w code crash = st := by
    unfold stopAndWait
    rw [hact]
    rfl
  refine ⟨rfl, rfl, ?_⟩
  rw [delete_fst, hsw]
  exact alRemove_of_none st.records id h

def emptyMgr : Mgr := ⟨[], [], [], 0⟩

/-- C10 witness: deleting an unknown id from the empty manager state. -/
theorem claim10_witness :
    (delete_plugin emptyMgr "ghost" false 0 false false false).2.2 = (true, "") ∧
    (delete_plugin emptyMgr "ghost" false 0 false false false).2.1
      = [Emit.deleted "ghost"] := by
  have h := claim10_delete_unknown_ok emptyMgr "ghost" false 0 false false rfl
  exact ⟨h.1, h.2.1⟩

end NovaSpec
